import Mathlib

/-!
Shallow embedding of `mplayer/core.py` (PyMPlayer): the `Player` command
channel (`Player._command`, `Player._propset`, `Player._propset_bool`,
`Player.args`), the `Step` value object, and the `_FileWrapper`
publisher/subscriber stream wrapper.  Python values are modelled by `PyVal`,
Python runtime type tests (`isinstance`) by `pyIsInstance` (with `bool` a
subclass of `int`, as in Python), and raised exceptions by `PyErr`.
The embedding follows Python 2 sequence semantics (in which `map` returns a
list), the dialect this source targets (cf. its use of `subprocess.mswindows`
and `raw_input`).
-/

/-- Python exceptions raised by the embedded code. -/
inductive PyErr where
  | typeError (msg : String)
  | valueError (msg : String)
deriving DecidableEq

/-- Python runtime values that flow through the command channel. -/
inductive PyVal where
  | vnone
  | vbool (b : Bool)
  | vint (n : Int)
  | vfloat (q : Rat)
  | vstr (s : String)
deriving DecidableEq

/-- The Python types used by the generated call surface. -/
inductive PyType where
  | tbool
  | tint
  | tfloat
  | tstr
deriving DecidableEq

/-- `__name__` of the type, as used in error messages. -/
def tyName : PyType → String
  | .tbool => "bool"
  | .tint => "int"
  | .tfloat => "float"
  | .tstr => "str"

/-- Python `isinstance(v, t)`.  `bool` is a subclass of `int`, so a boolean
is an instance of `int`; an `int` is not an instance of `float`. -/
def pyIsInstance : PyVal → PyType → Bool
  | .vbool _, .tbool => true
  | .vbool _, .tint => true
  | .vint _, .tint => true
  | .vfloat _, .tfloat => true
  | .vstr _, .tstr => true
  | _, _ => false

/-- Numeric view of a Python value (`bool` counts as 0/1), for `<`/`>`.
Modelled from the spec: floats are represented exactly as rationals; the
bound comparisons the code performs are order comparisons only. -/
def pyNum : PyVal → Option Rat
  | .vbool b => some (if b then 1 else 0)
  | .vint n => some (n : Rat)
  | .vfloat q => some q
  | _ => none

/-- Python `a < b` for the values the code compares (numbers with numbers,
strings with strings). -/
def pyLt (a b : PyVal) : Bool :=
  match pyNum a, pyNum b with
  | some x, some y => decide (x < y)
  | _, _ =>
    match a, b with
    | .vstr s, .vstr t => decide (s < t)
    | _, _ => false

/-- Python `a > b`, i.e. `b < a` for the compared kinds. -/
def pyGt (a b : PyVal) : Bool := pyLt b a

/-- Decimal rendering of a float.  Modelled from the spec: the embedding
only needs `str` of a float to be some fixed text; integral floats render
as `n.0` like Python, other rationals keep an exact fraction form. -/
def ratStr (q : Rat) : String :=
  if q.den = 1 then toString q.num ++ ".0"
  else toString q.num ++ "/" ++ toString q.den

/-- Python `str(v)`. -/
def pyStr : PyVal → String
  | .vnone => "None"
  | .vbool b => if b then "True" else "False"
  | .vint n => toString n
  | .vfloat q => ratStr q
  | .vstr s => s

/-- Characters that the Python default `strip`/`rstrip` removes. -/
def pyWsChars : List Char := [' ', '\t', '\n', '\r', Char.ofNat 11, Char.ofNat 12]

/-- Python `s.rstrip()`. -/
def pyRstrip (s : String) : String :=
  ⟨(s.data.reverse.dropWhile (fun c => c ∈ pyWsChars)).reverse⟩

/-- Python `s.strip(chars)`: drop the given characters from both ends. -/
def stripBoth (cs : List Char) (s : String) : String :=
  ⟨((s.data.dropWhile (fun c => c ∈ cs)).reverse.dropWhile (fun c => c ∈ cs)).reverse⟩

/-- Python `s.strip` with both quote characters, as used on answer payloads. -/
def stripQuotes (s : String) : String := stripBoth [Char.ofNat 39, '"'] s

/-- Python `s.partition` on the equals sign, last component: the text after the first `=`, or the empty
string when there is no `=`. -/
def afterFirstEq (s : String) : String :=
  match s.data.dropWhile (fun c => c ≠ '=') with
  | [] => ""
  | _ :: rest => ⟨rest⟩

/-- Whether the first list begins with the second. -/
def listStarts : List Char → List Char → Bool
  | _, [] => true
  | [], _ :: _ => false
  | c :: cs, d :: ds => c = d && listStarts cs ds

/-- Python `s.startswith(pat)`. -/
def strStarts (s pat : String) : Bool := listStarts s.data pat.data

/-- A subscriber callback registered on a `_FileWrapper`: an identity plus
whether the object is callable (has `__call__`). -/
structure Subscriber where
  sid : Nat
  callable : Bool
deriving DecidableEq

/-- State of `_FileWrapper`: the exclusive-access lock, the wrapped stream
(`None` or its remaining lines, each line still carrying its terminator),
and the registered subscribers in registration order. -/
structure FileWrapper where
  lockLocked : Bool
  wfile : Option (List String)
  subscribers : List Subscriber
deriving DecidableEq

/-- `_FileWrapper.publish`: returns the new wrapper state, the list of
deliveries made (subscriber, data) in call order, and the boolean result.
Reading a line consumes it from the stream; at end of stream `readline`
yields the empty string. -/
def FileWrapper.publish (w : FileWrapper) : FileWrapper × List (Subscriber × String) × Bool :=
  if w.lockLocked then (w, [], true)
  else
    match w.wfile with
    | none => (w, [], true)
    | some [] => (w, [], true)
    | some (l :: rest) =>
      let data := pyRstrip l
      if data = "" then ({ w with wfile := some rest }, [], true)
      else ({ w with wfile := some rest },
            w.subscribers.map (fun s => (s, data)), true)

/-- `_FileWrapper.hook`: a non-callable subscriber is invoked to raise
`TypeError`; an unregistered callable is appended (returning `True`); an
already-registered one is left alone (returning `False`). -/
def FileWrapper.hook (w : FileWrapper) (s : Subscriber) : Except PyErr (FileWrapper × Bool) :=
  if s.callable = false then .error (.typeError "object is not callable")
  else if s ∈ w.subscribers then .ok (w, false)
  else .ok ({ w with subscribers := w.subscribers ++ [s] }, true)

/-- `_FileWrapper.unhook`: remove the first matching registration if present
(returning `True`), else leave the list unchanged (returning `False`). -/
def FileWrapper.unhook (w : FileWrapper) (s : Subscriber) : FileWrapper × Bool :=
  if s ∈ w.subscribers then ({ w with subscribers := w.subscribers.erase s }, true)
  else (w, false)

/-- Observable state of a `Player` for the command channel: process
liveness, the class-level default command prefix token, whether the
stdout pipe of the process exists, the lines available to read on it, and the
lines written to the stdin of the process so far. -/
structure PlayerState where
  alive : Bool
  cmdPfx : String
  stdoutAvail : Bool
  stdoutLines : List String
  transmitted : List String
deriving DecidableEq

/-- Outcome of one `Player._command` (or property setter) call: a normal
return with an optional string result, a raised exception together with the
state at the moment of the raise, or a getter exchange that blocks forever
because no answer line ever matches. -/
inductive CmdResult where
  | ret (st : PlayerState) (res : Option String)
  | raised (e : PyErr) (st : PlayerState)
  | blocked (st : PlayerState)
deriving DecidableEq

/-- `args = tuple(x for x in args if x is not None)`. -/
def filteredArgs (args : List PyVal) : List PyVal :=
  args.filter (fun a => a ≠ PyVal.vnone)

/-- First argument (paired with its expected type) failing `isinstance`,
with its 0-based index: Python 2 `result = map(isinstance, args, types)`
followed by `result.index(False)`. -/
def firstMismatch : List PyVal → List PyType → Option (Nat × PyType)
  | [], _ => none
  | _, [] => none
  | a :: rest, t :: ts =>
    if pyIsInstance a t then (firstMismatch rest ts).map (fun p => (p.1 + 1, p.2))
    else some (0, t)

/-- `str(int(x)) if isinstance(x, bool) else str(x)`: how one argument is
rendered onto the wire. -/
def renderArg (v : PyVal) : String :=
  match v with
  | .vbool b => if b then "1" else "0"
  | _ => pyStr v

/-- The token list joined into the wire line: `[prefix, name, args..., nl]`
with the leading prefix popped for `quit`, `pause` and `stop`. -/
def wireTokens (pfx nm : String) (args : List PyVal) : List String :=
  let base := pfx :: nm :: (args.map renderArg ++ ["\n"])
  if nm ∈ ["quit", "pause", "stop"] then base.drop 1 else base

/-- The space-join of the tokens: the full transmitted line. -/
def wireLine (pfx nm : String) (args : List PyVal) : String :=
  String.intercalate " " (wireTokens pfx nm args)

/-- The key `ANS_` plus `str` of the first remaining argument, if any. -/
def ansKey (args2 : List PyVal) : String :=
  "ANS_" ++ (match args2.head? with | some a => pyStr a | none => "")

/-- The answer-reading loop: `readline` (then `rstrip`) until a line starts
with the key or with `ANS_ERROR`; yields that line and the unread rest. -/
def scanAns (key : String) : List String → Option (String × List String)
  | [] => none
  | l :: rest =>
    let r := pyRstrip l
    if strStarts r key || strStarts r "ANS_ERROR" then some (r, rest)
    else scanAns key rest

/-- The MPlayer "no value" sentinels. -/
def sentinels : List String := ["(null)", "PROPERTY_UNAVAILABLE", "PROPERTY_UNKNOWN"]

/-- `Player._command(name, *args, types=(), prefix=None)`.  Dead process or
empty name: silent no-op.  Otherwise arguments are filtered of `None`,
type-checked against `types` (Python 2 `map` raises when `args` outruns
`types[:len(args)]`), the wire line is built, and either written (plain
command) or written-and-answered under the stdout lock (getter). -/
def Player.command (st : PlayerState) (nm : String) (args : List PyVal)
    (types : List PyType) (pfxOver : Option String) : CmdResult :=
  if st.alive = false ∨ nm = "" then .ret st none
  else if types ≠ [] ∧ types.length < (filteredArgs args).length then
    .raised (.typeError "isinstance() arg 2 must be a class, type, or tuple of classes and types") st
  else
    match firstMismatch (filteredArgs args) types with
    | some it =>
      .raised (.typeError ("expected " ++ tyName it.2 ++ " for argument " ++ toString (it.1 + 1))) st
    | none =>
      if strStarts nm "get_" = false then
        .ret { st with transmitted := st.transmitted ++ [wireLine (pfxOver.getD st.cmdPfx) nm (filteredArgs args)] } none
      else if st.stdoutAvail then
        match scanAns (ansKey (filteredArgs args)) st.stdoutLines with
        | none =>
          .blocked { st with
            transmitted := st.transmitted ++ [wireLine (pfxOver.getD st.cmdPfx) nm (filteredArgs args)],
            stdoutLines := [] }
        | some (r, rest) =>
          .ret { st with
              transmitted := st.transmitted ++ [wireLine (pfxOver.getD st.cmdPfx) nm (filteredArgs args)],
              stdoutLines := rest }
            (if stripQuotes (afterFirstEq r) ∈ sentinels then none
             else some (stripQuotes (afterFirstEq r)))
      else .ret st none

/-- A value assigned to a generated property: either an absolute Python
value or a `Step` instance carrying its `_val` and `_dir` fields. -/
inductive PropValue where
  | absolute (v : PyVal)
  | stepv (sval sdir : PyVal)
deriving DecidableEq

/-- `value < pmin` guard (`False` when the bound is `None`). -/
def boundBelow (v : PyVal) : Option PyVal → Bool
  | some m => pyLt v m
  | none => false

/-- `value > pmax` guard (`False` when the bound is `None`). -/
def boundAbove (v : PyVal) : Option PyVal → Bool
  | some m => pyGt v m
  | none => false

/-- `str` of a bound for the `ValueError` message. -/
def optStr : Option PyVal → String
  | some m => pyStr m
  | none => "None"

/-- `Player._propset(value, pname, ptype, pmin, pmax)`. -/
def Player.propset (st : PlayerState) (value : PropValue) (pname : String)
    (ptype : PyType) (pmin pmax : Option PyVal) : CmdResult :=
  match value with
  | .absolute v =>
    if pyIsInstance v ptype = false then
      .raised (.typeError ("expected " ++ tyName ptype)) st
    else if boundBelow v pmin then
      .raised (.valueError ("value must be at least " ++ optStr pmin)) st
    else if boundAbove v pmax then
      .raised (.valueError ("value must be at most " ++ optStr pmax)) st
    else Player.command st "set_property" [.vstr pname, v] [] none
  | .stepv v d => Player.command st "step_property" [.vstr pname, v, d] [] none

/-- `Player._propset_bool(value, pname)`. -/
def Player.propsetBool (st : PlayerState) (value : PropValue) (pname : String) : CmdResult :=
  match value with
  | .absolute v =>
    if pyIsInstance v .tbool = false then
      .raised (.typeError "expected bool") st
    else Player.command st "set_property" [.vstr pname, v] [] none
  | .stepv _ _ => Player.command st "step_property" [.vstr pname] [] none

/-- `Step.__init__(value=0, direction=0)`: validates the two fields and
stores them. -/
def stepInit (value direction : PyVal) : Except PyErr (PyVal × PyVal) :=
  if (pyIsInstance value .tint || pyIsInstance value .tfloat) = false then
    .error (.typeError "expected int or float for value")
  else if pyIsInstance direction .tint = false then
    .error (.typeError "expected int for direction")
  else .ok (value, direction)

/-- Lexer states of `shlex` in POSIX mode with `whitespace_split=True`:
between tokens, inside a word, inside single/double quotes, or after the
escape character (remembering whether it occurred inside double quotes). -/
inductive LexState where
  | ws
  | word
  | squote
  | dquote
  | escWord
  | escDquote
deriving DecidableEq

/-- `shlex.whitespace`. -/
def shWsChars : List Char := [' ', '\t', '\r', '\n']

/-- The `shlex.split` state machine (POSIX rules, `whitespace_split=True`,
no comment characters): remaining input, state, current token, whether the
current token saw a quote, and the tokens emitted so far.  `none` models
the `ValueError` raised on an unterminated quote or trailing escape. -/
def shlexRun : List Char → LexState → List Char → Bool → List String → Option (List String)
  | [], st, tok, quoted, acc =>
    match st with
    | .squote => none
    | .dquote => none
    | .escWord => none
    | .escDquote => none
    | _ => if tok ≠ [] ∨ quoted then some (acc ++ [⟨tok⟩]) else some acc
  | c :: cs, .ws, tok, quoted, acc =>
    if c ∈ shWsChars then
      if tok ≠ [] ∨ quoted then shlexRun cs .ws [] false (acc ++ [⟨tok⟩])
      else shlexRun cs .ws tok quoted acc
    else if c = '\\' then shlexRun cs .escWord tok quoted acc
    else if c = Char.ofNat 39 then shlexRun cs .squote tok quoted acc
    else if c = '"' then shlexRun cs .dquote tok quoted acc
    else shlexRun cs .word (tok ++ [c]) quoted acc
  | c :: cs, .word, tok, quoted, acc =>
    if c ∈ shWsChars then
      if tok ≠ [] ∨ quoted then shlexRun cs .ws [] false (acc ++ [⟨tok⟩])
      else shlexRun cs .ws [] false acc
    else if c = '\\' then shlexRun cs .escWord tok quoted acc
    else if c = Char.ofNat 39 then shlexRun cs .squote tok quoted acc
    else if c = '"' then shlexRun cs .dquote tok quoted acc
    else shlexRun cs .word (tok ++ [c]) quoted acc
  | c :: cs, .squote, tok, _, acc =>
    if c = Char.ofNat 39 then shlexRun cs .word tok true acc
    else shlexRun cs .squote (tok ++ [c]) true acc
  | c :: cs, .dquote, tok, _, acc =>
    if c = '"' then shlexRun cs .word tok true acc
    else if c = '\\' then shlexRun cs .escDquote tok true acc
    else shlexRun cs .dquote (tok ++ [c]) true acc
  | c :: cs, .escWord, tok, quoted, acc => shlexRun cs .word (tok ++ [c]) quoted acc
  | c :: cs, .escDquote, tok, quoted, acc =>
    if c ≠ '\\' ∧ c ≠ '"' then shlexRun cs .dquote (tok ++ ['\\', c]) quoted acc
    else shlexRun cs .dquote (tok ++ [c]) quoted acc

/-- `shlex.split(s)` (POSIX mode), as the `args` setter applies to a string
argument; `none` models the `ValueError` on malformed input. -/
def shlexSplit (s : String) : Option (List String) :=
  shlexRun s.data .ws [] false []

/-- The seven protocol-enabling tokens the `args` setter always prepends. -/
def protocolArgs : List String :=
  ["-slave", "-idle", "-quiet", "-input", "nodefault-bindings", "-noconfig", "all"]

/-- What a caller may assign to `Player.args`: a single string (split with
shell quoting rules) or a sequence of values (each passed through `str`). -/
inductive ArgsInput where
  | fromString (s : String)
  | fromList (xs : List PyVal)
deriving DecidableEq

/-- The `args` property setter: computes the stored `_args` list. -/
def Player.setArgs (a : ArgsInput) : Option (List String) :=
  match a with
  | .fromString s => (shlexSplit s).map (fun toks => protocolArgs ++ toks)
  | .fromList xs => some (protocolArgs ++ xs.map pyStr)

/-- The `args` property getter: `self._args[7:]`. -/
def Player.getArgs (stored : List String) : List String := stored.drop 7


/-- C1: `publish` with the lock held or no attached stream delivers nothing
and returns `True` (keep watching); an empty line read delivers nothing and
returns `True`; a non-empty line is delivered exactly once to every
currently registered subscriber, in registration order, returning `True`.
In particular no delivery happens while the exclusive-access lock is held. -/
theorem publish_broadcast_spec (w : FileWrapper) :
    ((w.lockLocked = true ∨ w.wfile = none) → w.publish = (w, [], true)) ∧
    (∀ l rest, w.lockLocked = false → w.wfile = some (l :: rest) → pyRstrip l = "" →
      w.publish = ({ w with wfile := some rest }, [], true)) ∧
    (∀ l rest, w.lockLocked = false → w.wfile = some (l :: rest) → pyRstrip l ≠ "" →
      w.publish = ({ w with wfile := some rest },
        w.subscribers.map (fun s => (s, pyRstrip l)), true) ∧
      ∀ s, w.subscribers.Nodup → s ∈ w.subscribers →
        ((w.subscribers.map (fun x => (x, pyRstrip l))).map Prod.fst).count s = 1) := by
  refine ⟨?_, ?_, ?_⟩
  · rintro (h | h) <;> simp [FileWrapper.publish, h]
  · intro l rest hlock hfile hdata
    simp [FileWrapper.publish, hlock, hfile, hdata]
  · intro l rest hlock hfile hdata
    constructor
    · simp [FileWrapper.publish, hlock, hfile, hdata]
    · intro s hnodup hmem
      have hid : (Prod.fst ∘ fun x : Subscriber => (x, pyRstrip l)) = id := rfl
      rw [List.map_map, hid, List.map_id]
      exact List.count_eq_one_of_mem hnodup hmem

/-- C1 witness: with no lock held and the line `hello` available, both of
two registered subscribers receive `hello` exactly once, in order. -/
theorem publish_broadcast_wit :
    FileWrapper.publish ⟨false, some ["hello\n", "x"], [⟨0, true⟩, ⟨1, true⟩]⟩
      = (⟨false, some ["x"], [⟨0, true⟩, ⟨1, true⟩]⟩,
         [(⟨0, true⟩, "hello"), (⟨1, true⟩, "hello")], true) ∧
    ((([⟨0, true⟩, ⟨1, true⟩] : List Subscriber).map
        (fun x => (x, pyRstrip "hello\n"))).map Prod.fst).count ⟨0, true⟩ = 1 := by
  have h := (publish_broadcast_spec ⟨false, some ["hello\n", "x"], [⟨0, true⟩, ⟨1, true⟩]⟩).2.2
      "hello\n" ["x"] rfl rfl (by decide)
  exact ⟨h.1, h.2 ⟨0, true⟩ (by decide) (by decide)⟩

/-- C5: `_command` with a dead process or an empty name returns `None`,
transmits nothing, raises nothing, and leaves the whole state unchanged. -/
theorem command_noop_dead_spec (st : PlayerState) (nm : String) (args : List PyVal)
    (types : List PyType) (pfxOver : Option String)
    (h : st.alive = false ∨ nm = "") :
    Player.command st nm args types pfxOver = CmdResult.ret st none := by
  unfold Player.command
  rw [if_pos h]

/-- C5 witness: a `pause` command against a dead process is a silent no-op. -/
theorem command_noop_dead_wit :
    Player.command ⟨false, "pausing_keep_force", true, ["ANS_ERROR\n"], []⟩
        "pause" [PyVal.vbool true] [PyType.tbool] none
      = CmdResult.ret ⟨false, "pausing_keep_force", true, ["ANS_ERROR\n"], []⟩ none :=
  command_noop_dead_spec _ _ _ _ _ (Or.inl rfl)

/-- C7: `hook` of a non-callable raises `TypeError` registering nothing;
`hook` of a new callable appends it returning `True`, after which the
subscriber is registered exactly once and hooking it again returns `False`
without change; `unhook` removes a registered subscriber returning `True`
and is a no-op returning `False` on an unregistered one. -/
theorem hook_unhook_spec (w : FileWrapper) (s : Subscriber) :
    (s.callable = false → w.hook s = Except.error (PyErr.typeError "object is not callable")) ∧
    (s.callable = true → s ∈ w.subscribers → w.hook s = Except.ok (w, false)) ∧
    (s.callable = true → s ∉ w.subscribers →
      w.hook s = Except.ok ({ w with subscribers := w.subscribers ++ [s] }, true) ∧
      (w.subscribers ++ [s]).count s = 1 ∧
      FileWrapper.hook { w with subscribers := w.subscribers ++ [s] } s
        = Except.ok ({ w with subscribers := w.subscribers ++ [s] }, false)) ∧
    (s ∈ w.subscribers → w.unhook s = ({ w with subscribers := w.subscribers.erase s }, true)) ∧
    (s ∉ w.subscribers → w.unhook s = (w, false)) := by
  refine ⟨?_, ?_, ?_, ?_, ?_⟩
  · intro h; simp [FileWrapper.hook, h]
  · intro hc hm; simp [FileWrapper.hook, hc, hm]
  · intro hc hm
    refine ⟨by simp [FileWrapper.hook, hc, hm], ?_, ?_⟩
    · rw [List.count_append, List.count_eq_zero_of_not_mem hm]
      simp
    · simp [FileWrapper.hook, hc]
  · intro hm; simp [FileWrapper.unhook, hm]
  · intro hm; simp [FileWrapper.unhook, hm]

/-- C7 witness: hooking subscriber 5 onto a broadcaster that does not hold
it appends it once; hooking again reports `False`; unhooking subscriber 9
(not registered) is a no-op reporting `False`. -/
theorem hook_unhook_wit :
    FileWrapper.hook ⟨false, none, [⟨3, true⟩]⟩ ⟨5, true⟩
      = Except.ok (⟨false, none, [⟨3, true⟩, ⟨5, true⟩]⟩, true) ∧
    ([⟨3, true⟩, ⟨5, true⟩] : List Subscriber).count ⟨5, true⟩ = 1 ∧
    FileWrapper.hook ⟨false, none, [⟨3, true⟩, ⟨5, true⟩]⟩ ⟨5, true⟩
      = Except.ok (⟨false, none, [⟨3, true⟩, ⟨5, true⟩]⟩, false) ∧
    FileWrapper.unhook ⟨false, none, [⟨3, true⟩]⟩ ⟨9, true⟩
      = (⟨false, none, [⟨3, true⟩]⟩, false) := by
  have h := (hook_unhook_spec ⟨false, none, [⟨3, true⟩]⟩ ⟨5, true⟩).2.2.1 rfl (by decide)
  have h2 := (hook_unhook_spec ⟨false, none, [⟨3, true⟩]⟩ ⟨9, true⟩).2.2.2.2 (by decide)
  exact ⟨h.1, h.2.1, h.2.2, h2⟩

/-- C9: `Step(value, direction)` accepts any pair of booleans (since `bool`
is a subclass of `int`), and raises `TypeError` exactly when `value` is an
instance of neither `int` nor `float` or `direction` is not an instance of
`int`. -/
theorem stepInit_spec :
    (∀ b1 b2 : Bool, stepInit (.vbool b1) (.vbool b2)
        = Except.ok (PyVal.vbool b1, PyVal.vbool b2)) ∧
    (∀ v d : PyVal,
      (∃ m, stepInit v d = Except.error (PyErr.typeError m)) ↔
        ((pyIsInstance v .tint = false ∧ pyIsInstance v .tfloat = false) ∨
          pyIsInstance d .tint = false)) := by
  constructor
  · intro b1 b2; cases b1 <;> cases b2 <;> rfl
  · intro v d
    unfold stepInit
    by_cases h1 : (pyIsInstance v .tint || pyIsInstance v .tfloat) = false
    · rw [if_pos h1]
      simp only [Bool.or_eq_false_iff] at h1
      simp [h1]
    · rw [if_neg h1]
      simp only [Bool.or_eq_false_iff] at h1
      by_cases h2 : pyIsInstance d .tint = false
      · simp [h2, h1]
      · simp [h2, h1]

/-- C9 witness: `Step(True, False)` succeeds, and `Step` with a string
value raises `TypeError`. -/
theorem stepInit_wit :
    stepInit (.vbool true) (.vbool false)
      = Except.ok (PyVal.vbool true, PyVal.vbool false) ∧
    (∃ m, stepInit (.vstr "x") (.vint 0) = Except.error (PyErr.typeError m)) := by
  refine ⟨stepInit_spec.1 true false, ?_⟩
  exact (stepInit_spec.2 (.vstr "x") (.vint 0)).mpr (Or.inl ⟨rfl, rfl⟩)

/-- C8: assigning a string to `args` stores the seven protocol tokens
followed by its shell-split tokens; assigning a sequence stores the seven
tokens followed by `str` of each element; the getter returns exactly the
caller part, never the seven protocol tokens, which always head the stored
list. -/
theorem args_roundtrip_spec (s : String) (toks : List String) (xs : List PyVal) :
    (shlexSplit s = some toks →
      Player.setArgs (.fromString s) = some (protocolArgs ++ toks) ∧
      Player.getArgs (protocolArgs ++ toks) = toks) ∧
    (Player.setArgs (.fromList xs) = some (protocolArgs ++ xs.map pyStr) ∧
      Player.getArgs (protocolArgs ++ xs.map pyStr) = xs.map pyStr) ∧
    (∀ a stored, Player.setArgs a = some stored →
      stored.take 7 = protocolArgs ∧ protocolArgs ++ Player.getArgs stored = stored) := by
  have hdrop : ∀ t : List String, Player.getArgs (protocolArgs ++ t) = t := by
    intro t
    simp [Player.getArgs, protocolArgs]
  have htake : ∀ t : List String, (protocolArgs ++ t).take 7 = protocolArgs := by
    intro t
    simp [protocolArgs]
  refine ⟨?_, ?_, ?_⟩
  · intro hs
    exact ⟨by simp [Player.setArgs, hs], hdrop toks⟩
  · exact ⟨rfl, hdrop (xs.map pyStr)⟩
  · intro a stored hset
    match a with
    | .fromString s2 =>
      simp only [Player.setArgs, Option.map_eq_some'] at hset
      obtain ⟨t2, _, ht2⟩ := hset
      subst ht2
      exact ⟨htake t2, by rw [hdrop t2]⟩
    | .fromList xs2 =>
      simp only [Player.setArgs, Option.some_inj] at hset
      subst hset
      exact ⟨htake _, by rw [hdrop]⟩

/-- C8 witness: a quoted string splits by shell rules; a mixed sequence is
coerced elementwise to text; the stored list heads with the protocol
tokens and the getter drops exactly them. -/
theorem args_roundtrip_wit :
    Player.setArgs (.fromString "-vo gl2 -ao \"alsa dev\"")
      = some (protocolArgs ++ ["-vo", "gl2", "-ao", "alsa dev"]) ∧
    Player.getArgs (protocolArgs ++ ["-vo", "gl2", "-ao", "alsa dev"])
      = ["-vo", "gl2", "-ao", "alsa dev"] ∧
    Player.setArgs (.fromList [.vstr "-fs", .vint 2, .vbool true])
      = some (protocolArgs ++ ["-fs", "2", "True"]) ∧
    (protocolArgs ++ ["-fs", "2", "True"]).take 7 = protocolArgs := by
  have h1 := (args_roundtrip_spec "-vo gl2 -ao \"alsa dev\""
      ["-vo", "gl2", "-ao", "alsa dev"] []).1 (by decide)
  have h2 := (args_roundtrip_spec "" [] [.vstr "-fs", .vint 2, .vbool true]).2.1
  have h3 := (args_roundtrip_spec "" [] []).2.2 (.fromList [.vstr "-fs", .vint 2, .vbool true])
      (protocolArgs ++ ["-fs", "2", "True"]) (by decide)
  exact ⟨h1.1, h1.2, by simpa using h2.1, h3.1⟩

/-- C6: every transmitted command line is the space-join of
`prefix, name, rendered arguments, newline`, with booleans rendered `1`/`0`,
other arguments via `str`, `None` arguments dropped, and the prefix token
omitted entirely for `quit`, `pause` and `stop`, whatever the default or
per-call override prefix is. -/
theorem wire_format_spec (st : PlayerState) (nm : String) (args : List PyVal)
    (types : List PyType) (pfxOver : Option String)
    (halive : st.alive = true) (hname : nm ≠ "")
    (hlen : ¬(types ≠ [] ∧ types.length < (filteredArgs args).length))
    (hty : firstMismatch (filteredArgs args) types = none)
    (hget : strStarts nm "get_" = false) :
    Player.command st nm args types pfxOver
      = CmdResult.ret { st with transmitted := st.transmitted
          ++ [wireLine (pfxOver.getD st.cmdPfx) nm (filteredArgs args)] } none ∧
    filteredArgs args = args.filter (fun a => a ≠ PyVal.vnone) ∧
    renderArg (.vbool true) = "1" ∧ renderArg (.vbool false) = "0" ∧
    (∀ v : PyVal, (∀ b, v ≠ PyVal.vbool b) → renderArg v = pyStr v) ∧
    (nm ∉ ["quit", "pause", "stop"] →
      wireLine (pfxOver.getD st.cmdPfx) nm (filteredArgs args)
        = String.intercalate " "
            ((pfxOver.getD st.cmdPfx) :: nm :: ((filteredArgs args).map renderArg ++ ["\n"]))) ∧
    (∀ pfx2 : String, nm ∈ ["quit", "pause", "stop"] →
      wireLine pfx2 nm (filteredArgs args)
        = String.intercalate " " (nm :: ((filteredArgs args).map renderArg ++ ["\n"]))) := by
  refine ⟨?_, rfl, rfl, rfl, ?_, ?_, ?_⟩
  · unfold Player.command
    rw [if_neg (by simp [halive, hname]), if_neg hlen, hty, if_pos (by rw [hget])]
  · intro v hv
    match v with
    | .vnone => rfl
    | .vbool b => exact absurd rfl (hv b)
    | .vint n => rfl
    | .vfloat q => rfl
    | .vstr s2 => rfl
  · intro hniq
    simp [wireLine, wireTokens, hniq]
  · intro pfx2 hq
    simp [wireLine, wireTokens, hq]

/-- C6 witness: `stop` with a boolean `True` argument and a dropped `None`
argument is transmitted, under the default prefix, as the unprefixed line
`stop 1` followed by the newline token. -/
theorem wire_format_wit :
    Player.command ⟨true, "pausing_keep_force", true, [], []⟩
        "stop" [.vbool true, .vnone] [] none
      = CmdResult.ret ⟨true, "pausing_keep_force", true, [], ["stop 1 \n"]⟩ none ∧
    Player.command ⟨true, "pausing_keep_force", true, [], []⟩
        "frame_step" [.vbool true] [] (some "pausing")
      = CmdResult.ret ⟨true, "pausing_keep_force", true, [],
          ["pausing frame_step 1 \n"]⟩ none := by
  have h1 := (wire_format_spec ⟨true, "pausing_keep_force", true, [], []⟩
      "stop" [.vbool true, .vnone] [] none rfl (by decide) (by decide) (by decide) (by decide)).1
  have h2 := (wire_format_spec ⟨true, "pausing_keep_force", true, [], []⟩
      "frame_step" [.vbool true] [] (some "pausing") rfl (by decide) (by decide) (by decide)
      (by decide)).1
  constructor
  · rw [h1]; rfl
  · rw [h2]; rfl

/-- Soundness of `firstMismatch`: it returns the index of the first
argument/type pair failing `isinstance`, with every earlier pair passing. -/
theorem firstMismatch_sound :
    ∀ (l : List PyVal) (ts : List PyType) (i : Nat) (t : PyType),
      firstMismatch l ts = some (i, t) →
      ∃ a, l[i]? = some a ∧ ts[i]? = some t ∧ pyIsInstance a t = false ∧
        ∀ j a2 t2, j < i → l[j]? = some a2 → ts[j]? = some t2 →
          pyIsInstance a2 t2 = true := by
  intro l
  induction l with
  | nil => intro ts i t h; simp [firstMismatch] at h
  | cons a rest ih =>
    intro ts i t h
    match ts with
    | [] => simp [firstMismatch] at h
    | t0 :: ts0 =>
      by_cases hi : pyIsInstance a t0 = true
      · rw [firstMismatch, if_pos hi] at h
        rw [Option.map_eq_some'] at h
        obtain ⟨⟨i0, t0x⟩, hrec, heq⟩ := h
        cases heq
        obtain ⟨a2, hl, hts, hfail, hpre⟩ := ih ts0 i0 t0x hrec
        refine ⟨a2, by simpa using hl, by simpa using hts, hfail, ?_⟩
        intro j a3 t3 hj hl3 hts3
        match j with
        | 0 =>
          simp at hl3 hts3
          subst hl3; subst hts3
          exact hi
        | j2 + 1 =>
          simp at hl3 hts3
          exact hpre j2 a3 t3 (Nat.lt_of_succ_lt_succ hj) hl3 hts3
      · rw [firstMismatch, if_neg hi] at h
        injection h with h2
        cases h2
        refine ⟨a, by simp, by simp, by simpa using hi, ?_⟩
        intro j a2 t2 hj
        exact absurd hj (Nat.not_lt_zero j)

/-- C3: with a non-empty expected-type tuple (covering the remaining
arguments), the first remaining argument whose runtime type fails
`isinstance` aborts the call with a `TypeError` naming the expected type
and the 1-based argument position, with the state unchanged (nothing
transmitted); every earlier argument passed its check. -/
theorem command_typecheck_spec (st : PlayerState) (nm : String) (args : List PyVal)
    (types : List PyType) (pfxOver : Option String) (i : Nat) (t : PyType)
    (halive : st.alive = true) (hname : nm ≠ "")
    (hlen : (filteredArgs args).length ≤ types.length)
    (hmis : firstMismatch (filteredArgs args) types = some (i, t)) :
    Player.command st nm args types pfxOver
      = CmdResult.raised
          (PyErr.typeError ("expected " ++ tyName t ++ " for argument " ++ toString (i + 1))) st ∧
    (∃ a, (filteredArgs args)[i]? = some a ∧ types[i]? = some t ∧
      pyIsInstance a t = false ∧
      ∀ j a2 t2, j < i → (filteredArgs args)[j]? = some a2 → types[j]? = some t2 →
        pyIsInstance a2 t2 = true) := by
  constructor
  · unfold Player.command
    rw [if_neg (by simp [halive, hname]), if_neg (by omega), hmis]
  · exact firstMismatch_sound _ _ _ _ hmis

/-- C3 witness: `osd_show_text` with an `int` where a `str` is expected
(second position) raises `TypeError` naming `str` and position 2, before
anything is written. -/
theorem command_typecheck_wit :
    Player.command ⟨true, "pausing_keep_force", true, [], []⟩
        "osd_show_text" [.vstr "hi", .vint 3, .vint 0] [.tstr, .tstr, .tint] none
      = CmdResult.raised (PyErr.typeError "expected str for argument 2")
          ⟨true, "pausing_keep_force", true, [], []⟩ := by
  have h := (command_typecheck_spec ⟨true, "pausing_keep_force", true, [], []⟩
      "osd_show_text" [.vstr "hi", .vint 3, .vint 0] [.tstr, .tstr, .tint] none 1 .tstr
      rfl (by decide) (by decide) (by decide)).1
  rw [h]; rfl

/-- Soundness of the answer-reading loop: the matched line is the `rstrip`
of some stream line, it matches the key or `ANS_ERROR`, every line read
and discarded before it matched neither, and the rest of the stream is
untouched. -/
theorem scanAns_sound (key : String) :
    ∀ (ls : List String) (out : String) (restl : List String),
      scanAns key ls = some (out, restl) →
      ∃ raw skipped, ls = skipped ++ raw :: restl ∧ out = pyRstrip raw ∧
        (strStarts out key || strStarts out "ANS_ERROR") = true ∧
        ∀ x ∈ skipped,
          (strStarts (pyRstrip x) key || strStarts (pyRstrip x) "ANS_ERROR") = false := by
  intro ls
  induction ls with
  | nil => intro out restl h; simp [scanAns] at h
  | cons l rest ih =>
    intro out restl h
    rw [scanAns] at h
    by_cases hm : (strStarts (pyRstrip l) key || strStarts (pyRstrip l) "ANS_ERROR") = true
    · rw [if_pos hm] at h
      injection h with h2
      injection h2 with hout hrest
      subst hout; subst hrest
      exact ⟨l, [], rfl, rfl, hm, by simp⟩
    · rw [if_neg hm] at h
      obtain ⟨raw, skipped, hsplit, hout, hmatch, hskip⟩ := ih out restl h
      refine ⟨raw, l :: skipped, by rw [hsplit]; rfl, hout, hmatch, ?_⟩
      intro x hx
      rcases List.mem_cons.mp hx with hx1 | hx2
      · subst hx1
        exact Bool.not_eq_true _ ▸ (by simpa using hm)
      · exact hskip x hx2

/-- C2: a getter command issued while alive with stdout available, whose
type validation passes, transmits its line and then reads stream lines,
discarding every line that starts with neither `ANS_` plus the first
argument (just `ANS_` when there is none) nor `ANS_ERROR`, until one
matches; the returned value is the text after the first `=` of that line
with surrounding quote characters stripped, normalized to `None` when it
is one of `(null)`, `PROPERTY_UNAVAILABLE`, `PROPERTY_UNKNOWN`. -/
theorem getter_exchange_spec (st : PlayerState) (nm : String) (args : List PyVal)
    (types : List PyType) (pfxOver : Option String) (r : String) (rest : List String)
    (halive : st.alive = true) (hname : nm ≠ "")
    (hget : strStarts nm "get_" = true) (hout : st.stdoutAvail = true)
    (hlen : ¬(types ≠ [] ∧ types.length < (filteredArgs args).length))
    (hty : firstMismatch (filteredArgs args) types = none)
    (hscan : scanAns (ansKey (filteredArgs args)) st.stdoutLines = some (r, rest)) :
    Player.command st nm args types pfxOver
      = CmdResult.ret { st with
          transmitted := st.transmitted
            ++ [wireLine (pfxOver.getD st.cmdPfx) nm (filteredArgs args)],
          stdoutLines := rest }
        (if stripQuotes (afterFirstEq r) ∈ sentinels then none
         else some (stripQuotes (afterFirstEq r))) ∧
    (strStarts r (ansKey (filteredArgs args)) || strStarts r "ANS_ERROR") = true ∧
    (∃ raw skipped, st.stdoutLines = skipped ++ raw :: rest ∧ r = pyRstrip raw ∧
      ∀ x ∈ skipped,
        (strStarts (pyRstrip x) (ansKey (filteredArgs args))
          || strStarts (pyRstrip x) "ANS_ERROR") = false) ∧
    (∀ a as2, filteredArgs args = a :: as2 → ansKey (filteredArgs args) = "ANS_" ++ pyStr a) ∧
    (filteredArgs args = [] → ansKey (filteredArgs args) = "ANS_") ∧
    sentinels = ["(null)", "PROPERTY_UNAVAILABLE", "PROPERTY_UNKNOWN"] := by
  obtain ⟨raw, skipped, hsplit, houtr, hmatch, hskip⟩ :=
    scanAns_sound (ansKey (filteredArgs args)) st.stdoutLines r rest hscan
  refine ⟨?_, hmatch, ⟨raw, skipped, hsplit, houtr, hskip⟩, ?_, ?_, rfl⟩
  · unfold Player.command
    rw [if_neg (by simp [halive, hname]), if_neg hlen, hty, if_neg (by rw [hget]; simp),
      if_pos hout, hscan]
  · intro a as2 hcons
    rw [hcons]; rfl
  · intro hnil
    rw [hnil]; rfl

/-- C2 witness: `get_property volume` against a stream whose first line is
unrelated skips it, matches `ANS_volume="50"`, and returns the payload
`50` with the quotes stripped; a second exchange matching a
`PROPERTY_UNAVAILABLE` payload returns `None`. -/
theorem getter_exchange_wit :
    Player.command ⟨true, "pausing_keep_force", true,
        ["Playing x.\n", "ANS_volume=\"50\"\n"], []⟩
        "get_property" [.vstr "volume"] [] none
      = CmdResult.ret ⟨true, "pausing_keep_force", true, [],
          ["pausing_keep_force get_property volume \n"]⟩ (some "50") ∧
    Player.command ⟨true, "pausing_keep_force", true,
        ["ANS_volume=PROPERTY_UNAVAILABLE\n"], []⟩
        "get_property" [.vstr "volume"] [] none
      = CmdResult.ret ⟨true, "pausing_keep_force", true, [],
          ["pausing_keep_force get_property volume \n"]⟩ none := by
  have h1 := (getter_exchange_spec ⟨true, "pausing_keep_force", true,
      ["Playing x.\n", "ANS_volume=\"50\"\n"], []⟩
      "get_property" [.vstr "volume"] [] none "ANS_volume=\"50\"" []
      rfl (by decide) (by decide) rfl (by decide) (by decide) (by decide)).1
  have h2 := (getter_exchange_spec ⟨true, "pausing_keep_force", true,
      ["ANS_volume=PROPERTY_UNAVAILABLE\n"], []⟩
      "get_property" [.vstr "volume"] [] none "ANS_volume=PROPERTY_UNAVAILABLE" []
      rfl (by decide) (by decide) rfl (by decide) (by decide) (by decide)).1
  constructor
  · rw [h1]; rfl
  · rw [h2]; rfl

/-- Shared helper: a live, named, non-getter command with no expected types
writes exactly its wire line and returns `None`. -/
theorem command_send_plain (st : PlayerState) (nm : String) (args2 : List PyVal)
    (pfxOver : Option String)
    (halive : st.alive = true) (hname : nm ≠ "")
    (hget : strStarts nm "get_" = false) :
    Player.command st nm args2 [] pfxOver
      = CmdResult.ret { st with transmitted := st.transmitted
          ++ [wireLine (pfxOver.getD st.cmdPfx) nm (filteredArgs args2)] } none := by
  unfold Player.command
  have hm : firstMismatch (filteredArgs args2) [] = none := by
    cases filteredArgs args2 <;> rfl
  rw [if_neg (by simp [halive, hname]), if_neg (by simp), hm, if_pos (by rw [hget])]

/-- C4: for a bounded property setter (both bounds present), a non-`Step`
value of the wrong runtime type raises `TypeError` and a value below the
minimum or above the maximum raises `ValueError`, in every case with the
state unchanged (nothing transmitted); a `Step` value skips all validation
and transmits a `step_property` line instead of a `set_property` line. -/
theorem propset_bounds_spec (st : PlayerState) (pname : String) (ptype : PyType)
    (m M : PyVal) :
    (∀ v, pyIsInstance v ptype = false →
      Player.propset st (.absolute v) pname ptype (some m) (some M)
        = CmdResult.raised (PyErr.typeError ("expected " ++ tyName ptype)) st) ∧
    (∀ v, pyIsInstance v ptype = true → pyLt v m = true →
      Player.propset st (.absolute v) pname ptype (some m) (some M)
        = CmdResult.raised (PyErr.valueError ("value must be at least " ++ pyStr m)) st) ∧
    (∀ v, pyIsInstance v ptype = true → pyLt v m = false → pyGt v M = true →
      Player.propset st (.absolute v) pname ptype (some m) (some M)
        = CmdResult.raised (PyErr.valueError ("value must be at most " ++ pyStr M)) st) ∧
    (∀ v, pyIsInstance v ptype = true → pyLt v m = false → pyGt v M = false →
      st.alive = true → v ≠ PyVal.vnone →
      Player.propset st (.absolute v) pname ptype (some m) (some M)
        = CmdResult.ret { st with transmitted := st.transmitted
            ++ [wireLine st.cmdPfx "set_property" [.vstr pname, v]] } none) ∧
    (∀ v d, Player.propset st (.stepv v d) pname ptype (some m) (some M)
      = Player.command st "step_property" [.vstr pname, v, d] [] none) ∧
    (∀ v d, st.alive = true → v ≠ PyVal.vnone → d ≠ PyVal.vnone →
      Player.propset st (.stepv v d) pname ptype (some m) (some M)
        = CmdResult.ret { st with transmitted := st.transmitted
            ++ [wireLine st.cmdPfx "step_property" [.vstr pname, v, d]] } none) := by
  refine ⟨?_, ?_, ?_, ?_, ?_, ?_⟩
  · intro v hv
    simp [Player.propset, hv]
  · intro v hv hlt
    simp [Player.propset, hv, boundBelow, hlt, optStr]
  · intro v hv hlt hgt
    simp [Player.propset, hv, boundBelow, hlt, boundAbove, hgt, optStr]
  · intro v hv hlt hgt halive hvn
    have hfa : filteredArgs [PyVal.vstr pname, v] = [PyVal.vstr pname, v] := by
      simp [filteredArgs, hvn]
    simp only [Player.propset, hv, Bool.true_eq_false, if_false, boundBelow, hlt,
      boundAbove, hgt]
    rw [command_send_plain st "set_property" [PyVal.vstr pname, v] none halive
      (by decide) (by decide), hfa]
    simp
  · intro v d
    rfl
  · intro v d halive hvn hdn
    have hfa : filteredArgs [PyVal.vstr pname, v, d] = [PyVal.vstr pname, v, d] := by
      simp [filteredArgs, hvn, hdn]
    show Player.command st "step_property" [.vstr pname, v, d] [] none = _
    rw [command_send_plain st "step_property" [PyVal.vstr pname, v, d] none halive
      (by decide) (by decide), hfa]
    rfl

/-- C4 witness: setting a 0-100 bounded int property to 150 raises
`ValueError` ("at most 100") with nothing transmitted; a `Step` on the
same property transmits a `step_property` line. -/
theorem propset_bounds_wit :
    Player.propset ⟨true, "pausing_keep_force", true, [], []⟩
        (.absolute (.vint 150)) "volume" .tint (some (.vint 0)) (some (.vint 100))
      = CmdResult.raised (PyErr.valueError "value must be at most 100")
          ⟨true, "pausing_keep_force", true, [], []⟩ ∧
    Player.propset ⟨true, "pausing_keep_force", true, [], []⟩
        (.stepv (.vint 50) (.vint (-1))) "volume" .tint (some (.vint 0)) (some (.vint 100))
      = CmdResult.ret ⟨true, "pausing_keep_force", true, [],
          ["pausing_keep_force step_property volume 50 -1 \n"]⟩ none := by
  have h1 := (propset_bounds_spec ⟨true, "pausing_keep_force", true, [], []⟩
      "volume" .tint (.vint 0) (.vint 100)).2.2.1 (.vint 150) rfl (by decide) (by decide)
  have h2 := (propset_bounds_spec ⟨true, "pausing_keep_force", true, [], []⟩
      "volume" .tint (.vint 0) (.vint 100)).2.2.2.2.2 (.vint 50) (.vint (-1))
      rfl (by decide) (by decide)
  constructor
  · rw [h1]; rfl
  · rw [h2]; rfl

/-- C10 counterexample: under the default prefix, assigning `Step(0, 0)` to
the boolean property `fullscreen` transmits the single line
`pausing_keep_force step_property fullscreen \n` — which does not start
with `step_property`, so the transmitted line is not
`step_property fullscreen` as the claim literally states (a prefix token
is always prepended, since `step_property` is not prefix-exempt). -/
theorem step_bool_line_counterexample :
    Player.propsetBool ⟨true, "pausing_keep_force", true, [], []⟩
        (.stepv (.vint 0) (.vint 0)) "fullscreen"
      = CmdResult.ret ⟨true, "pausing_keep_force", true, [],
          ["pausing_keep_force step_property fullscreen \n"]⟩ none ∧
    strStarts "pausing_keep_force step_property fullscreen \n" "step_property" = false := by
  exact ⟨by rfl, by decide⟩

/-- C10 (amended): assigning a `Step` to a boolean-typed property discards
the magnitude and direction entirely — the transmitted line is
`<prefix> step_property <name>` (plus the newline token) with no further
arguments — whereas assigning a `Step` to a non-boolean property transmits
`<prefix> step_property <name> <magnitude> <direction>` including both
fields. -/
theorem step_bool_vs_numeric_spec (st : PlayerState) (pname : String)
    (ptype : PyType) (pmin pmax : Option PyVal) (v d : PyVal)
    (halive : st.alive = true) (hvn : v ≠ PyVal.vnone) (hdn : d ≠ PyVal.vnone) :
    Player.propsetBool st (.stepv v d) pname
      = CmdResult.ret { st with transmitted := st.transmitted
          ++ [String.intercalate " " [st.cmdPfx, "step_property", pname, "\n"]] } none ∧
    Player.propset st (.stepv v d) pname ptype pmin pmax
      = CmdResult.ret { st with transmitted := st.transmitted
          ++ [String.intercalate " "
              [st.cmdPfx, "step_property", pname, renderArg v, renderArg d, "\n"]] } none := by
  constructor
  · show Player.command st "step_property" [.vstr pname] [] none = _
    rw [command_send_plain st "step_property" [PyVal.vstr pname] none halive
      (by decide) (by decide)]
    rfl
  · show Player.command st "step_property" [.vstr pname, v, d] [] none = _
    rw [command_send_plain st "step_property" [PyVal.vstr pname, v, d] none halive
      (by decide) (by decide)]
    have hfa : filteredArgs [PyVal.vstr pname, v, d] = [PyVal.vstr pname, v, d] := by
      simp [filteredArgs, hvn, hdn]
    rw [hfa]
    rfl

/-- C10 witness: `Step(50, -1)` on boolean `fullscreen` transmits no
magnitude or direction, while the same `Step` on `time_pos` transmits
both. -/
theorem step_bool_vs_numeric_wit :
    Player.propsetBool ⟨true, "pausing_keep_force", true, [], []⟩
        (.stepv (.vint 50) (.vint (-1))) "fullscreen"
      = CmdResult.ret ⟨true, "pausing_keep_force", true, [],
          ["pausing_keep_force step_property fullscreen \n"]⟩ none ∧
    Player.propset ⟨true, "pausing_keep_force", true, [], []⟩
        (.stepv (.vint 50) (.vint (-1))) "time_pos" .tfloat none none
      = CmdResult.ret ⟨true, "pausing_keep_force", true, [],
          ["pausing_keep_force step_property time_pos 50 -1 \n"]⟩ none := by
  have h := step_bool_vs_numeric_spec ⟨true, "pausing_keep_force", true, [], []⟩
      "fullscreen" .tfloat none none (.vint 50) (.vint (-1)) rfl (by decide) (by decide)
  have h2 := step_bool_vs_numeric_spec ⟨true, "pausing_keep_force", true, [], []⟩
      "time_pos" .tfloat none none (.vint 50) (.vint (-1)) rfl (by decide) (by decide)
  constructor
  · rw [h.1]; rfl
  · rw [h2.2]; rfl
